import Mathlib

/-!
Verification of the sales-taxes kata (`src/src/lib.rs`, `src/src/main.rs`).

Monetary values, held as `f64` in the source, are embedded as exact
rationals (`ℚ`): every literal the program manipulates is a finite
decimal, all arithmetic used (addition, multiplication by decimal rates,
rounding to multiples of 1/20) is exact on decimals, and the reference
test vectors of the repository agree with this exact reading.
`f64::round` is round-half-away-from-zero, embedded as `roundAway`.
Strings are Lean `String`s; character-level work uses `List Char`.
-/

/-- Round-half-away-from-zero on `ℚ`, the behaviour of Rust `f64::round`. -/
def roundAway (x : ℚ) : ℤ :=
  if 0 ≤ x then ⌊x + 1/2⌋ else -⌊-x + 1/2⌋

/-- Embeds `round_numbers` (lib.rs:56-58): `(number * 20.0).round() / 20.0`. -/
def round_numbers (number : ℚ) : ℚ :=
  (roundAway (number * 20) : ℚ) / 20

/-- Embeds `enum Imported` (lib.rs:5-8). -/
inductive Imported where
  | Yes : Imported
  | No : Imported
deriving DecidableEq

/-- Embeds `enum Category` (lib.rs:10-15); each variant carries the display name. -/
inductive Category where
  | Book : String → Category
  | Food : String → Category
  | Medical : String → Category
  | Other : String → Category
deriving DecidableEq

/-- Embeds `struct Item` (lib.rs:21-25). -/
structure Item where
  clean_price : ℚ
  imported : Imported
  category : Category
deriving DecidableEq

/-- Embeds `Item::new` (lib.rs:27-38): rejects a negative `clean_price`. -/
def Item.new (clean_price : ℚ) (imported : Imported) (category : Category) :
    Except String Item :=
  if clean_price < 0 then .error "clean_price must be positive"
  else .ok ⟨clean_price, imported, category⟩

/-- Embeds `Tax::get_prices` for `Item` (lib.rs:60-78). -/
def Item.get_prices (i : Item) : ℚ × ℚ :=
  match i.category, i.imported with
  | .Book _, .No | .Food _, .No | .Medical _, .No =>
      (i.clean_price, 0)
  | .Other _, .No =>
      (i.clean_price, round_numbers (i.clean_price * 0.10))
  | .Book _, .Yes | .Food _, .Yes | .Medical _, .Yes =>
      (i.clean_price, round_numbers (i.clean_price * 0.05))
  | .Other _, .Yes =>
      (i.clean_price, round_numbers (i.clean_price * (0.10 + 0.05)))

/-- Exponent of the largest power of `p` dividing `n`, with explicit fuel
(`fuel ≥ n` suffices); used to find the decimal expansion length of a
denominator. -/
def countFac (p : ℕ) : ℕ → ℕ → ℕ
  | 0, _ => 0
  | fuel + 1, n => if n % p = 0 ∧ n ≠ 0 ∧ 1 < p then countFac p fuel (n / p) + 1 else 0

/-- Zero-pads a digit string on the left to length `k`. -/
def padZeros (k : ℕ) (s : String) : String :=
  String.mk (List.replicate (k - s.length) '0') ++ s

/-- Renders a non-negative rational with a finite decimal expansion the way
Rust `{}` renders the corresponding `f64`: minimal digits, no trailing
zeros, no decimal point for integers. Models `std::fmt::Display` for `f64`
restricted to the decimal values this program produces. Rationals without
a finite decimal expansion cannot arise from an `f64` and render as "". -/
def showQnn (q : ℚ) : String :=
  let k := max (countFac 2 q.den q.den) (countFac 5 q.den q.den)
  if q.den = 2 ^ countFac 2 q.den q.den * 5 ^ countFac 5 q.den q.den then
    if k = 0 then Nat.repr q.num.toNat
    else
      Nat.repr ((q * 10 ^ k).num.toNat / 10 ^ k) ++ "." ++
        padZeros k (Nat.repr ((q * 10 ^ k).num.toNat % 10 ^ k))
  else ""

/-- Renders a rational as Rust `{}` renders the corresponding `f64`. -/
def showQ (q : ℚ) : String :=
  if q < 0 then "-" ++ showQnn (-q) else showQnn q

/-- Embeds `ToString for Item` (lib.rs:40-54): `"1 [imported ]<name>: <clean price>"`. -/
def Item.to_string (i : Item) : String :=
  let name := match i.category with
    | .Book x | .Food x | .Medical x | .Other x => x
  let tag := match i.imported with
    | .Yes => "1 imported "
    | .No => "1 "
  tag ++ name ++ ": " ++ showQ i.get_prices.1

/-- Embeds `struct Basket` (lib.rs:107-109), specialised to its only
instantiation `Basket<Item>` (main.rs). -/
structure Basket where
  elements : List Item
deriving DecidableEq

/-- Embeds `Basket::new` (lib.rs:115-117). -/
def Basket.new (elements : List Item) : Basket := ⟨elements⟩

/-- Embeds `Basket::get_total` (lib.rs:118-122). -/
def Basket.get_total (b : Basket) : ℚ :=
  b.elements.foldl (fun acc x => acc + x.get_prices.1 + x.get_prices.2) 0

/-- Embeds `Basket::get_tax` (lib.rs:123-127). -/
def Basket.get_tax (b : Basket) : ℚ :=
  b.elements.foldl (fun acc x => acc + x.get_prices.2) 0

/-- Embeds `ToString for Basket` (lib.rs:130-140). -/
def Basket.to_string (b : Basket) : String :=
  String.intercalate "\n"
    (b.elements.map Item.to_string ++
      ["Sales Taxes: " ++ showQ b.get_tax, "Total: " ++ showQ b.get_total])

/-- Boolean test that `pre` is a prefix of the second list. -/
def hasPrefixL : List Char → List Char → Bool
  | [], _ => true
  | _ :: _, [] => false
  | c :: cs, d :: ds => c == d && hasPrefixL cs ds

/-- Embeds Rust `str::contains` with a literal pattern (substring test,
case-sensitive): `containsSub hay needle`. -/
def containsSub : List Char → List Char → Bool
  | hay, needle =>
    if hasPrefixL needle hay then true
    else
      match hay with
      | [] => false
      | _ :: rest => containsSub rest needle

/-- Worker for `splitOnL`; `fuel ≥ length of the input + 1` guarantees the
fuel never runs out, so the first branch is unreachable in our use. -/
def splitGo (sep : List Char) : ℕ → List Char → List Char → List (List Char)
  | 0, s, acc => [acc.reverse ++ s]
  | fuel + 1, s, acc =>
    if sep ≠ [] ∧ hasPrefixL sep s then
      acc.reverse :: splitGo sep fuel (s.drop sep.length) []
    else
      match s with
      | [] => [acc.reverse]
      | c :: rest => splitGo sep fuel rest (c :: acc)

/-- Embeds Rust `str::split` with a non-empty literal pattern: splits at the
leftmost-first non-overlapping occurrences of `sep`. -/
def splitOnL (sep : List Char) (s : List Char) : List (List Char) :=
  splitGo sep (s.length + 1) s []

/-- Digit string to natural number, most significant digit first. -/
def digitsToNat (cs : List Char) : ℕ :=
  cs.foldl (fun a c => a * 10 + (c.toNat - 48)) 0

/-- Result of parsing an `f64`: a finite value (idealized as an exact
rational, per the file-wide exact-decimal reading), an infinity, or a
NaN. -/
inductive F64 where
  | finite : ℚ → F64
  | inf : F64
  | negInf : F64
  | nan : F64
deriving DecidableEq

/-- Negation of a parsed value, applied when the literal carries a leading
minus sign. -/
def F64.neg : F64 → F64
  | .finite q => .finite (-q)
  | .inf => .negInf
  | .negInf => .inf
  | .nan => .nan

/-- Models the `f64` comparison `v < 0.0` (the check of lib.rs:29 applied
to the parsed price): NaN compares false, positive infinity false,
negative infinity true. -/
def F64.ltZero : F64 → Bool
  | .finite q => decide (q < 0)
  | .inf => false
  | .negInf => true
  | .nan => false

/-- Rational shadow of a parsed value, keeping the `Item` embedding (whose
price is idealized as `ℚ`) total: a non-finite price has no rational
value and maps to 0. Whether construction fails is decided by
`F64.ltZero` before this is consulted, and no claim depends on the stored
price of a non-finite parse. -/
def F64.toRat : F64 → ℚ
  | .finite q => q
  | _ => 0

/-- Exponent part of the `f64::from_str` grammar, after the `e`/`E` has
been consumed: `Sign? Digit+`. -/
def parseExp (cs : List Char) : Option ℤ :=
  match cs with
  | '+' :: ds => if ds ≠ [] ∧ ds.all (fun c => c.isDigit) then
      some ((digitsToNat ds : ℕ) : ℤ) else none
  | '-' :: ds => if ds ≠ [] ∧ ds.all (fun c => c.isDigit) then
      some (-((digitsToNat ds : ℕ) : ℤ)) else none
  | ds => if ds ≠ [] ∧ ds.all (fun c => c.isDigit) then
      some ((digitsToNat ds : ℕ) : ℤ) else none

/-- Exact value of the `Number` part of the `f64::from_str` grammar:
`Digit+ ('.' Digit*)? Exp? | '.' Digit+ Exp?` with
`Exp ::= ('e'|'E') Sign? Digit+`. -/
def parseNumber (cs : List Char) : Option ℚ :=
  let ip := cs.takeWhile (fun c => c.isDigit)
  match cs.dropWhile (fun c => c.isDigit) with
  | [] => if ip = [] then none else some ((digitsToNat ip : ℕ) : ℚ)
  | '.' :: rest2 =>
    let fp := rest2.takeWhile (fun c => c.isDigit)
    if ip = [] ∧ fp = [] then none
    else
      let mant : ℚ := (digitsToNat ip : ℚ) + (digitsToNat fp : ℚ) / 10 ^ fp.length
      match rest2.dropWhile (fun c => c.isDigit) with
      | [] => some mant
      | c :: es =>
        if c = 'e' ∨ c = 'E' then (parseExp es).map (fun k => mant * 10 ^ k)
        else none
  | c :: es =>
    if (c = 'e' ∨ c = 'E') ∧ ip ≠ [] then
      (parseExp es).map (fun k => ((digitsToNat ip : ℕ) : ℚ) * 10 ^ k)
    else none

/-- Unsigned part of the `f64::from_str` grammar:
`'inf' | 'infinity' | 'nan' | Number`, the special words case-insensitive. -/
def parseMag (cs : List Char) : Option F64 :=
  if cs.map Char.toLower = "inf".toList ∨ cs.map Char.toLower = "infinity".toList then
    some .inf
  else if cs.map Char.toLower = "nan".toList then some .nan
  else (parseNumber cs).map F64.finite

/-- Embeds `str::parse::<f64>()` as used in lib.rs:88, following the
documented grammar of `f64::from_str`:
`Sign? ('inf' | 'infinity' | 'nan' | Number)`. Finite values are kept as
exact rationals (the file-wide exact-decimal idealization of `f64`, so no
binary rounding, overflow to infinity, or underflow to zero); infinities
and NaN are represented symbolically. -/
def parseF64 (cs : List Char) : Option F64 :=
  match cs with
  | '+' :: rest => parseMag rest
  | '-' :: rest => (parseMag rest).map F64.neg
  | rest => parseMag rest

/-- Embeds the call `Item::new(price, imported, category)` of lib.rs:103 on
the parsed `f64`: the constructor's check is `clean_price < 0.0`
(lib.rs:29), i.e. `F64.ltZero`. Agrees with `Item.new` on finite prices
(`newF_finite`). -/
def Item.newF (price : F64) (imported : Imported) (category : Category) :
    Except String Item :=
  if F64.ltZero price then .error "clean_price must be positive"
  else .ok ⟨price.toRat, imported, category⟩

/-- Embeds `FromStr for Item` (lib.rs:80-105). The source checks
`components.len() != 2` and then reads `components[0]` and
`components[1]`; the two-element match expresses exactly that. -/
def Item.from_str (s : String) : Except String Item :=
  match splitOnL " at ".toList s.toList with
  | [descr, priceStr] =>
    match parseF64 priceStr with
    | none => .error "Price is not valid"
    | some price =>
      let imported := if containsSub descr "imported".toList then Imported.Yes
        else Imported.No
      let category :=
        if containsSub descr "pills".toList then Category.Medical (String.mk descr)
        else if containsSub descr "chocolate".toList then Category.Food (String.mk descr)
        else if containsSub descr "perfume".toList then Category.Other (String.mk descr)
        else Category.Other (String.mk descr)
      Item.newF price imported category
  | _ => .error "Invalid string: missing 'at'"

/-- Modelled from the spec: `Basket::<Item>::from_str` is called in
main.rs:10 but its implementation is not among the source files; per §4.3
the batch variant parses an ordered list of lines via the Line Parser,
failing the whole batch on the first parse error (fail-fast, no partial
basket). -/
def parseLines : List String → Except String (List Item)
  | [] => .ok []
  | l :: ls =>
    match Item.from_str l with
    | .error e => .error e
    | .ok it =>
      match parseLines ls with
      | .error e => .error e
      | .ok its => .ok (it :: its)

/-- Modelled from the spec: the batch Basket construction of §4.3, built on
`parseLines`; succeeds with the parsed Items in input order. -/
def Basket.from_lines (lines : List String) : Except String Basket :=
  (parseLines lines).map Basket.new

/-- Display name carried by a `Category` (the payload of every variant). -/
def Category.name : Category → String
  | .Book x | .Food x | .Medical x | .Other x => x

/-- Spec §7: the `MissingSeparator` error kind, as realised by the code's
error value. -/
def errMissingSeparator (e : String) : Prop :=
  e = "Invalid string: missing 'at'"

/-- Spec §7: the `InvalidPrice` error kind ("negative or unparseable
price"), as realised by the code's two error values. -/
def errInvalidPrice (e : String) : Prop :=
  e = "Price is not valid" ∨ e = "clean_price must be positive"

/-- Spec §4.1 tax-rate table: rate over category × import flag. -/
def specRate (c : Category) (imp : Imported) : ℚ :=
  match c, imp with
  | .Book _, .No | .Food _, .No | .Medical _, .No => 0
  | .Book _, .Yes | .Food _, .Yes | .Medical _, .Yes => 0.05
  | .Other _, .No => 0.10
  | .Other _, .Yes => 0.15

/-- Spec §4.1 rounding policy: multiply by 20, round to the nearest integer
with ties away from zero, divide by 20. -/
def specRound005 (x : ℚ) : ℚ :=
  (roundAway (x * 20) : ℚ) / 20

/-- Spec §4.1: `prices()` returns `(pre_tax_price, round_0.05(pre_tax_price
* rate))`. -/
def specPrices (i : Item) : ℚ × ℚ :=
  (i.clean_price, specRound005 (i.clean_price * specRate i.category i.imported))

/-- Two-decimal rendering of a non-negative amount, per the spec's
`<amount, 2 decimals>` notation. -/
def fmt2nn (q : ℚ) : String :=
  Nat.repr ((roundAway (q * 100)).toNat / 100) ++ "." ++
    padZeros 2 (Nat.repr ((roundAway (q * 100)).toNat % 100))

/-- Two-decimal rendering of an amount, per the spec's `<amount, 2
decimals>` notation. -/
def fmt2 (q : ℚ) : String :=
  if q < 0 then "-" ++ fmt2nn (-q) else fmt2nn q

/-- Spec §4.1 `display()`: `"1 [imported ]<name>: <pre_tax_price + tax, 2
decimals>"`. -/
def spec_display (i : Item) : String :=
  "1 " ++ (if i.imported = .Yes then "imported " else "") ++ i.category.name ++
    ": " ++ fmt2 (i.get_prices.1 + i.get_prices.2)

/-- Spec §4.3 `render()`: one line per item via `display()`, in original
order, then the two summary lines with two-decimal amounts, newline-joined. -/
def spec_render (b : Basket) : String :=
  String.intercalate "\n"
    (b.elements.map spec_display ++
      ["Sales Taxes: " ++ fmt2 b.get_tax, "Total: " ++ fmt2 b.get_total])

/-! ### Helper lemmas -/

lemma roundAway_of_nonneg (x : ℚ) (hx : 0 ≤ x) : roundAway x = ⌊x + 1/2⌋ := by
  rw [roundAway, if_pos hx]

lemma roundAway_zero : roundAway 0 = 0 := by
  rw [roundAway_of_nonneg 0 le_rfl, Int.floor_eq_iff]
  exact ⟨by norm_num, by norm_num⟩

lemma roundAway_nonneg (x : ℚ) (hx : 0 ≤ x) : 0 ≤ roundAway x := by
  rw [roundAway_of_nonneg x hx]
  exact Int.floor_nonneg.mpr (by linarith)

lemma roundAway_eval (x : ℚ) (n : ℤ) (hx : 0 ≤ x) (h1 : (n : ℚ) ≤ x + 1/2)
    (h2 : x + 1/2 < n + 1) : roundAway x = n := by
  rw [roundAway_of_nonneg x hx]
  rw [Int.floor_eq_iff]
  exact ⟨h1, h2⟩

lemma round_numbers_eval (x : ℚ) (n : ℤ) (hx : 0 ≤ x) (h1 : (n : ℚ) ≤ x * 20 + 1/2)
    (h2 : x * 20 + 1/2 < n + 1) : round_numbers x = (n : ℚ) / 20 := by
  rw [round_numbers, roundAway_eval (x * 20) n (by positivity) h1 h2]

lemma get_prices_fst (i : Item) : i.get_prices.1 = i.clean_price := by
  rw [Item.get_prices]
  rcases i with ⟨p, imp, cat⟩
  cases imp <;> cases cat <;> rfl

lemma foldl_add_section (f : Item → ℚ) (l : List Item) (c : ℚ) :
    l.foldl (fun acc x => acc + f x) c = c + (l.map f).sum := by
  induction l generalizing c with
  | nil => simp
  | cons a t ih => simp [ih, add_assoc]

lemma get_total_foldl (b : Basket) :
    b.get_total = (b.elements.map (fun x => x.get_prices.1 + x.get_prices.2)).sum := by
  rw [Basket.get_total]
  have h : (fun (acc : ℚ) (x : Item) => acc + x.get_prices.1 + x.get_prices.2) =
      fun acc x => acc + (x.get_prices.1 + x.get_prices.2) := by
    funext acc x
    ring
  rw [h, foldl_add_section, zero_add]

lemma get_tax_foldl (b : Basket) :
    b.get_tax = (b.elements.map (fun x => x.get_prices.2)).sum := by
  rw [Basket.get_tax, foldl_add_section, zero_add]

/-! ### Claim theorems -/

/-- Claim C1: for every Item with pre-tax price p ≥ 0, `get_prices` returns
`(p, t)` with `t = round_0.05(p * rate)`, the rate being 0 / 0.05 / 0.10 /
0.15 per the category × import table, and `round_0.05` multiplying by 20,
rounding to the nearest integer with ties away from zero, and dividing
by 20. -/
theorem get_prices_follows_spec_table (i : Item) (h : 0 ≤ i.clean_price) :
    i.get_prices = specPrices i := by
  rcases i with ⟨p, imp, cat⟩
  cases imp <;> cases cat <;>
    simp only [Item.get_prices, specPrices, specRate, specRound005, round_numbers]
  case No.Book | No.Food | No.Medical =>
    refine congrArg (Prod.mk p) ?_
    rw [show p * 0 * 20 = (0 : ℚ) by ring, roundAway_zero]
    norm_num
  case Yes.Other =>
    refine congrArg (Prod.mk p) ?_
    rw [show p * (0.10 + 0.05) * 20 = p * 0.15 * 20 by norm_num]

/-- Witness for C1 at the domestic Other item "music CD" priced 14.99. -/
theorem get_prices_follows_spec_table_witness :
    (0 : ℚ) ≤ 14.99 ∧
      (Item.mk 14.99 .No (.Other "music CD")).get_prices =
        specPrices (Item.mk 14.99 .No (.Other "music CD")) :=
  ⟨by norm_num, get_prices_follows_spec_table _ (by norm_num)⟩

/-- Claim C4: for every basket, `get_total` (grand total) equals `get_tax`
(total tax) plus the sum of the items' pre-tax prices. -/
theorem grand_total_eq_total_tax_plus_pretax_sum (b : Basket) :
    b.get_total = b.get_tax + (b.elements.map (fun x => x.clean_price)).sum := by
  rw [get_total_foldl, get_tax_foldl]
  have h : (b.elements.map (fun x => x.get_prices.1 + x.get_prices.2)).sum =
      (b.elements.map (fun x => x.get_prices.2)).sum +
        (b.elements.map (fun x => x.clean_price)).sum := by
    induction b.elements with
    | nil => simp
    | cons a t ih =>
      simp only [List.map_cons, List.sum_cons, get_prices_fst] at ih ⊢
      rw [ih]
      ring
  exact h

/-- Claim C5: for every Item with pre-tax price p ≥ 0, the tax component of
`get_prices` is non-negative and an exact integer multiple of 0.05 = 1/20. -/
theorem tax_nonneg_multiple_of_nickel (i : Item) (h : 0 ≤ i.clean_price) :
    0 ≤ i.get_prices.2 ∧ ∃ n : ℤ, i.get_prices.2 = (n : ℚ) / 20 := by
  rcases i with ⟨p, imp, cat⟩
  have key : ∀ r : ℚ, 0 ≤ r →
      0 ≤ round_numbers (p * r) ∧ ∃ n : ℤ, round_numbers (p * r) = (n : ℚ) / 20 := by
    intro r hr
    have hx : (0 : ℚ) ≤ p * r * 20 := by positivity
    constructor
    · rw [round_numbers]
      have := roundAway_nonneg (p * r * 20) hx
      positivity
    · exact ⟨roundAway (p * r * 20), rfl⟩
  cases imp <;> cases cat <;> simp only [Item.get_prices]
  case No.Book | No.Food | No.Medical =>
    exact ⟨le_rfl, 0, by norm_num⟩
  case No.Other => exact key 0.10 (by norm_num)
  case Yes.Book | Yes.Food | Yes.Medical => exact key 0.05 (by norm_num)
  case Yes.Other => exact key (0.10 + 0.05) (by norm_num)

/-- Witness for C5 at the imported Other item priced 47.50. -/
theorem tax_nonneg_multiple_of_nickel_witness :
    (0 : ℚ) ≤ 47.50 ∧
      (0 ≤ (Item.mk 47.50 .Yes (.Other "bottle of perfume")).get_prices.2 ∧
        ∃ n : ℤ, (Item.mk 47.50 .Yes (.Other "bottle of perfume")).get_prices.2 =
          (n : ℚ) / 20) :=
  ⟨by norm_num, tax_nonneg_multiple_of_nickel _ (by norm_num)⟩

/-- Claim C8: `Item::new` fails with the InvalidPrice error for every
negative pre-tax price and any category/import combination, and succeeds
for every non-negative price, storing exactly the given fields. -/
theorem item_new_price_validation (p : ℚ) (imp : Imported) (cat : Category) :
    (p < 0 → ∃ e, Item.new p imp cat = .error e ∧ errInvalidPrice e) ∧
      (0 ≤ p → Item.new p imp cat = .ok ⟨p, imp, cat⟩) := by
  constructor
  · intro hneg
    exact ⟨"clean_price must be positive", by rw [Item.new, if_pos hneg], Or.inr rfl⟩
  · intro hpos
    rw [Item.new, if_neg (not_lt.mpr hpos)]

/-- Witness for C8 at price -1 (rejected) and price 2 (accepted). -/
theorem item_new_price_validation_witness :
    ((-1 : ℚ) < 0 ∧ ∃ e, Item.new (-1) .Yes (.Book "b") = .error e ∧ errInvalidPrice e) ∧
      ((0 : ℚ) ≤ 2 ∧ Item.new 2 .No (.Other "x") = .ok ⟨2, .No, .Other "x"⟩) :=
  ⟨⟨by norm_num, (item_new_price_validation (-1) .Yes (.Book "b")).1 (by norm_num)⟩,
    ⟨by norm_num, (item_new_price_validation 2 .No (.Other "x")).2 (by norm_num)⟩⟩

lemma newF_finite (q : ℚ) (imp : Imported) (cat : Category) :
    Item.newF (.finite q) imp cat = Item.new q imp cat := by
  simp only [Item.newF, Item.new, F64.ltZero, F64.toRat, decide_eq_true_eq]

lemma from_str_split_two (s : String) (d pr : List Char)
    (h : splitOnL " at ".toList s.toList = [d, pr]) :
    Item.from_str s =
      match parseF64 pr with
      | none => Except.error "Price is not valid"
      | some price =>
          Item.newF price
            (if containsSub d "imported".toList then Imported.Yes else Imported.No)
            (if containsSub d "pills".toList then Category.Medical (String.mk d)
             else if containsSub d "chocolate".toList then Category.Food (String.mk d)
             else if containsSub d "perfume".toList then Category.Other (String.mk d)
             else Category.Other (String.mk d)) := by
  unfold Item.from_str
  rw [h]

lemma from_str_split_ne_two (s : String)
    (h : ∀ d pr, splitOnL " at ".toList s.toList ≠ [d, pr]) :
    Item.from_str s = .error "Invalid string: missing 'at'" := by
  unfold Item.from_str
  rcases hL : splitOnL " at ".toList s.toList with _ | ⟨a, _ | ⟨b, _ | t⟩⟩
  · rfl
  · rfl
  · exact absurd hL (h a b)
  · rfl

/-- Claim C6: parsing fails with MissingSeparator exactly when splitting on
`" at "` does not yield exactly two parts, and, when it yields exactly two
parts, fails with InvalidPrice exactly when the second part is not a
parseable decimal amount or parses to a negative amount. -/
theorem from_str_error_conditions (s : String) :
    ((∃ e, Item.from_str s = .error e ∧ errMissingSeparator e) ↔
      (splitOnL " at ".toList s.toList).length ≠ 2) ∧
    (∀ d pr, splitOnL " at ".toList s.toList = [d, pr] →
      ((∃ e, Item.from_str s = .error e ∧ errInvalidPrice e) ↔
        (parseF64 pr = none ∨ ∃ v, parseF64 pr = some v ∧ F64.ltZero v = true))) := by
  constructor
  · rcases hL : splitOnL " at ".toList s.toList with _ | ⟨d0, _ | ⟨p0, _ | ⟨x0, tl⟩⟩⟩
    case nil | cons.nil | cons.cons.cons =>
      rw [from_str_split_ne_two s (by rw [hL]; simp)]
      constructor
      · intro _
        simp
      · intro _
        exact ⟨"Invalid string: missing 'at'", rfl, rfl⟩
    case cons.cons.nil =>
      rw [from_str_split_two s d0 p0 hL]
      simp only [List.length_cons, List.length_nil, ne_eq, not_true_eq_false,
        iff_false, not_exists, not_and]
      rintro e he hmsg
      rw [errMissingSeparator] at hmsg
      subst hmsg
      rcases hP : parseF64 p0 with _ | v
      · rw [hP] at he
        simp only [Except.error.injEq] at he
        exact absurd he (by decide)
      · rw [hP] at he
        simp only [Item.newF] at he
        split_ifs at he with hq
        simp only [Except.error.injEq] at he
        exact absurd he (by decide)
  · intro d pr hL
    rw [from_str_split_two s d pr hL]
    rcases hP : parseF64 pr with _ | v
    · constructor
      · intro _
        exact Or.inl rfl
      · intro _
        exact ⟨"Price is not valid", rfl, Or.inl rfl⟩
    · simp only [Item.newF]
      by_cases hq : F64.ltZero v = true
      · rw [if_pos hq]
        constructor
        · intro _
          exact Or.inr ⟨v, rfl, hq⟩
        · intro _
          exact ⟨"clean_price must be positive", rfl, Or.inr rfl⟩
      · rw [if_neg hq]
        constructor
        · rintro ⟨e, he, _⟩
          exact absurd he (by simp)
        · rintro (hnone | ⟨v', hv', hneg⟩)
          · exact absurd hnone (by simp)
          · injection hv' with hvv
            exact absurd (hvv ▸ hneg) hq

/-- Witness for C6 at the line "x at -1": the split yields two parts and the
negative price is rejected as InvalidPrice. -/
theorem from_str_error_conditions_witness :
    splitOnL " at ".toList "x at -1".toList = [['x'], ['-', '1']] ∧
      (∃ e, Item.from_str "x at -1" = .error e ∧ errInvalidPrice e) :=
  ⟨rfl, ((from_str_error_conditions "x at -1").2 ['x'] ['-', '1'] rfl).mpr
    (Or.inr ⟨.finite (-((1 : ℕ) : ℚ)), rfl, by
      simp only [F64.ltZero, decide_eq_true_eq]
      norm_num⟩)⟩

/-- Claim C7: every accepted line yields an Item that is imported exactly
when the description contains "imported", whose category follows the fixed
keyword precedence pills → Medical, chocolate → Food, perfume → Other,
default Other, and whose display name is the description verbatim. -/
theorem from_str_classification (s : String) (it : Item)
    (h : Item.from_str s = .ok it) :
    ∃ d pr, splitOnL " at ".toList s.toList = [d, pr] ∧
      it.imported = (if containsSub d "imported".toList then Imported.Yes
        else Imported.No) ∧
      it.category =
        (if containsSub d "pills".toList then Category.Medical (String.mk d)
         else if containsSub d "chocolate".toList then Category.Food (String.mk d)
         else if containsSub d "perfume".toList then Category.Other (String.mk d)
         else Category.Other (String.mk d)) ∧
      it.category.name = String.mk d := by
  rcases hL : splitOnL " at ".toList s.toList with _ | ⟨d0, _ | ⟨p0, _ | ⟨x0, tl⟩⟩⟩
  case nil | cons.nil | cons.cons.cons =>
    rw [from_str_split_ne_two s (fun d pr => by rw [hL]; simp)] at h
    exact absurd h (by simp)
  case cons.cons.nil =>
    rw [from_str_split_two s d0 p0 hL] at h
    refine ⟨d0, p0, rfl, ?_⟩
    rcases hP : parseF64 p0 with _ | v
    · rw [hP] at h
      exact absurd h (by simp)
    · rw [hP] at h
      simp only [Item.newF] at h
      by_cases hv : F64.ltZero v = true
      · rw [if_pos hv] at h
        exact absurd h (by simp)
      · rw [if_neg hv] at h
        injection h with h2
        subst h2
        exact ⟨rfl, rfl, by split_ifs <;> rfl⟩

/-- Witness for C7 at the line "imported chocolate at 1.5". -/
theorem from_str_classification_witness :
    ∃ d pr, splitOnL " at ".toList "imported chocolate at 1.5".toList = [d, pr] ∧
      (Item.mk 1.5 .Yes (.Food "imported chocolate")).imported =
        (if containsSub d "imported".toList then Imported.Yes else Imported.No) ∧
      (Item.mk 1.5 .Yes (.Food "imported chocolate")).category =
        (if containsSub d "pills".toList then Category.Medical (String.mk d)
         else if containsSub d "chocolate".toList then Category.Food (String.mk d)
         else if containsSub d "perfume".toList then Category.Other (String.mk d)
         else Category.Other (String.mk d)) ∧
      (Item.mk 1.5 .Yes (.Food "imported chocolate")).category.name = String.mk d :=
  from_str_classification "imported chocolate at 1.5"
    ⟨1.5, .Yes, .Food "imported chocolate"⟩ (by
      rw [show Item.from_str "imported chocolate at 1.5" =
        Item.newF (.finite (((1 : ℕ) : ℚ) + ((5 : ℕ) : ℚ) / 10 ^ 1)) .Yes
          (.Food "imported chocolate") from rfl]
      simp only [Item.newF]
      rw [if_neg (by simp only [F64.ltZero, decide_eq_true_eq]; norm_num)]
      simp only [F64.toRat, Except.ok.injEq, Item.mk.injEq]
      norm_num)

lemma parseLines_append_error (pre : List String) (l : String) (post : List String)
    (e : String) (hok : ∀ l' ∈ pre, ∃ it, Item.from_str l' = .ok it)
    (hl : Item.from_str l = .error e) :
    parseLines (pre ++ l :: post) = .error e := by
  induction pre with
  | nil => simp only [List.nil_append, parseLines, hl]
  | cons a t ih =>
    obtain ⟨it, hit⟩ := hok a (by simp)
    have ht := ih (fun l' hm => hok l' (by simp [hm]))
    simp only [List.cons_append, parseLines, hit, List.append_eq, ht]

lemma parseLines_ok (lines : List String) (items : List Item)
    (h : List.Forall₂ (fun l it => Item.from_str l = .ok it) lines items) :
    parseLines lines = .ok items := by
  induction h with
  | nil => rfl
  | cons hrel htail ih => simp only [parseLines, hrel, ih]

/-- Claim C9: the batch construction parses lines in order; it fails with
the first malformed line's error and produces no partial Basket, and on
all-well-formed input it succeeds with the parsed Items in input order. -/
theorem basket_from_lines_batch :
    (∀ pre l post e, (∀ l' ∈ pre, ∃ it, Item.from_str l' = .ok it) →
        Item.from_str l = .error e →
        Basket.from_lines (pre ++ l :: post) = .error e) ∧
    (∀ lines items, List.Forall₂ (fun l it => Item.from_str l = .ok it) lines items →
        Basket.from_lines lines = .ok (Basket.new items)) := by
  constructor
  · intro pre l post e hok hl
    rw [Basket.from_lines, parseLines_append_error pre l post e hok hl]
    rfl
  · intro lines items h
    rw [Basket.from_lines, parseLines_ok lines items h]
    rfl

/-- Witness for C9: the batch ["b at 1", "x"] fails with the second line's
MissingSeparator error, and the batch ["b at 1"] succeeds in order. -/
theorem basket_from_lines_batch_witness :
    Basket.from_lines ["b at 1", "x"] = .error "Invalid string: missing 'at'" ∧
      Basket.from_lines ["b at 1"] =
        .ok (Basket.new [⟨((1 : ℕ) : ℚ), .No, .Other "b"⟩]) := by
  have hone : Item.from_str "b at 1" = .ok ⟨((1 : ℕ) : ℚ), .No, .Other "b"⟩ := by
    rw [show Item.from_str "b at 1" =
      Item.newF (.finite ((1 : ℕ) : ℚ)) .No (.Other "b") from rfl]
    simp only [Item.newF]
    rw [if_neg (by simp only [F64.ltZero, decide_eq_true_eq]; norm_num)]
    rfl
  constructor
  · exact basket_from_lines_batch.1 ["b at 1"] "x" [] "Invalid string: missing 'at'"
      (fun l' hm => ⟨⟨((1 : ℕ) : ℚ), .No, .Other "b"⟩, by
        rw [List.mem_singleton] at hm
        rw [hm, hone]⟩) rfl
  · exact basket_from_lines_batch.2 ["b at 1"] [⟨((1 : ℕ) : ℚ), .No, .Other "b"⟩]
      (List.Forall₂.cons hone List.Forall₂.nil)

lemma showQ_1499 : showQ (14.99 : ℚ) = "14.99" := by
  rw [showQ, if_neg (by norm_num), showQnn]
  rw [show (14.99 : ℚ).den = 100 from by norm_num]
  rw [show countFac 2 100 100 = 2 from rfl, show countFac 5 100 100 = 2 from rfl]
  rw [show max 2 2 = 2 from rfl]
  have h : ((14.99 : ℚ) * 10 ^ 2).num = 1499 := by norm_num
  rw [h]
  decide

lemma showQ_2799 : showQ (27.99 : ℚ) = "27.99" := by
  rw [showQ, if_neg (by norm_num), showQnn]
  rw [show (27.99 : ℚ).den = 100 from by norm_num]
  rw [show countFac 2 100 100 = 2 from rfl, show countFac 5 100 100 = 2 from rfl]
  rw [show max 2 2 = 2 from rfl]
  have h : ((27.99 : ℚ) * 10 ^ 2).num = 2799 := by norm_num
  rw [h]
  decide

lemma showQ_15 : showQ (1.5 : ℚ) = "1.5" := by
  rw [showQ, if_neg (by norm_num), showQnn]
  rw [show (1.5 : ℚ).den = 2 from by norm_num]
  rw [show countFac 2 2 2 = 1 from rfl, show countFac 5 2 2 = 0 from rfl]
  rw [show max 1 0 = 1 from rfl]
  have h : ((1.5 : ℚ) * 10 ^ 1).num = 15 := by norm_num
  rw [h]
  decide

lemma showQ_1649 : showQ (16.49 : ℚ) = "16.49" := by
  rw [showQ, if_neg (by norm_num), showQnn]
  rw [show (16.49 : ℚ).den = 100 from by norm_num]
  rw [show countFac 2 100 100 = 2 from rfl, show countFac 5 100 100 = 2 from rfl]
  rw [show max 2 2 = 2 from rfl]
  have h : ((16.49 : ℚ) * 10 ^ 2).num = 1649 := by norm_num
  rw [h]
  decide

lemma fmt2_3219 : fmt2 (32.19 : ℚ) = "32.19" := by
  rw [fmt2, if_neg (by norm_num), fmt2nn]
  rw [roundAway_eval ((32.19 : ℚ) * 100) 3219 (by norm_num) (by norm_num) (by norm_num)]
  decide

lemma fmt2_1649 : fmt2 (16.49 : ℚ) = "16.49" := by
  rw [fmt2, if_neg (by norm_num), fmt2nn]
  rw [roundAway_eval ((16.49 : ℚ) * 100) 1649 (by norm_num) (by norm_num) (by norm_num)]
  decide

lemma fmt2_150 : fmt2 (1.5 : ℚ) = "1.50" := by
  rw [fmt2, if_neg (by norm_num), fmt2nn]
  rw [roundAway_eval ((1.5 : ℚ) * 100) 150 (by norm_num) (by norm_num) (by norm_num)]
  decide

lemma tax_2799_imported_other :
    round_numbers ((27.99 : ℚ) * (0.10 + 0.05)) = 4.2 := by
  rw [round_numbers_eval ((27.99 : ℚ) * (0.10 + 0.05)) 84 (by norm_num) (by norm_num)
    (by norm_num)]
  norm_num

lemma tax_1499_domestic_other :
    round_numbers ((14.99 : ℚ) * 0.10) = 1.5 := by
  rw [round_numbers_eval ((14.99 : ℚ) * 0.10) 30 (by norm_num) (by norm_num) (by norm_num)]
  norm_num

/-- Claim C2 fails on the code: `to_string` for Item prints the pre-tax
price with default formatting, not `pre_tax_price + tax` with two
decimals. At the imported Other item priced 27.99 (tax 4.20) the code
renders "…: 27.99" while the claim, the spec and the repository's own
basket test (`basket_tests::test_total`) require "…: 32.19". -/
theorem item_display_shows_pretax_price_only :
    (Item.mk 27.99 .Yes (.Other "bottle of perfume")).to_string =
      "1 imported bottle of perfume: 27.99" ∧
    spec_display (Item.mk 27.99 .Yes (.Other "bottle of perfume")) =
      "1 imported bottle of perfume: 32.19" := by
  constructor
  · rw [show (Item.mk 27.99 .Yes (.Other "bottle of perfume")).to_string =
      "1 imported " ++ "bottle of perfume" ++ ": " ++ showQ (27.99 : ℚ) from rfl]
    rw [showQ_2799]
    rfl
  · rw [show spec_display (Item.mk 27.99 .Yes (.Other "bottle of perfume")) =
      "1 " ++ "imported " ++ "bottle of perfume" ++ ": " ++
        fmt2 ((27.99 : ℚ) + round_numbers ((27.99 : ℚ) * (0.10 + 0.05))) from rfl]
    rw [tax_2799_imported_other]
    rw [show (27.99 : ℚ) + 4.2 = 32.19 from by norm_num]
    rw [fmt2_3219]
    rfl

/-- Claim C3 fails on the code: the rendered receipt has the right line
structure and order, but the amounts are not two-decimal formatted (and
the item lines inherit the C2 display bug). For the one-item basket
[domestic Other "music CD" at 14.99] the code renders the tax line
"Sales Taxes: 1.5" and the item line "1 music CD: 14.99", while the claim
requires "Sales Taxes: 1.50" and "1 music CD: 16.49". -/
theorem basket_render_formatting_bug :
    (Basket.new [Item.mk 14.99 .No (.Other "music CD")]).to_string =
      "1 music CD: 14.99\nSales Taxes: 1.5\nTotal: 16.49" ∧
    spec_render (Basket.new [Item.mk 14.99 .No (.Other "music CD")]) =
      "1 music CD: 16.49\nSales Taxes: 1.50\nTotal: 16.49" := by
  have htax : (Basket.new [Item.mk 14.99 .No (.Other "music CD")]).get_tax = 1.5 := by
    rw [show (Basket.new [Item.mk 14.99 .No (.Other "music CD")]).get_tax =
      0 + round_numbers ((14.99 : ℚ) * 0.10) from rfl]
    rw [tax_1499_domestic_other]
    norm_num
  have htot : (Basket.new [Item.mk 14.99 .No (.Other "music CD")]).get_total = 16.49 := by
    rw [show (Basket.new [Item.mk 14.99 .No (.Other "music CD")]).get_total =
      0 + 14.99 + round_numbers ((14.99 : ℚ) * 0.10) from rfl]
    rw [tax_1499_domestic_other]
    norm_num
  constructor
  · rw [show (Basket.new [Item.mk 14.99 .No (.Other "music CD")]).to_string =
      String.intercalate "\n"
        ["1 " ++ "music CD" ++ ": " ++ showQ (14.99 : ℚ),
          "Sales Taxes: " ++ showQ (Basket.new [Item.mk 14.99 .No (.Other "music CD")]).get_tax,
          "Total: " ++ showQ (Basket.new [Item.mk 14.99 .No (.Other "music CD")]).get_total]
      from rfl]
    rw [htax, htot, showQ_1499, showQ_15, showQ_1649]
    rfl
  · rw [show spec_render (Basket.new [Item.mk 14.99 .No (.Other "music CD")]) =
      String.intercalate "\n"
        ["1 " ++ "" ++ "music CD" ++ ": " ++
            fmt2 ((14.99 : ℚ) + round_numbers ((14.99 : ℚ) * 0.10)),
          "Sales Taxes: " ++ fmt2 (Basket.new [Item.mk 14.99 .No (.Other "music CD")]).get_tax,
          "Total: " ++ fmt2 (Basket.new [Item.mk 14.99 .No (.Other "music CD")]).get_total]
      from rfl]
    rw [tax_1499_domestic_other, show (14.99 : ℚ) + 1.5 = 16.49 from by norm_num]
    rw [htax, htot, fmt2_1649, fmt2_150]
    rfl

/-- Claim C10: the empty basket has zero total tax, zero grand total, and
renders as exactly the two summary lines, both reporting zero, with no
item lines. -/
theorem empty_basket_receipt :
    (Basket.new []).get_tax = 0 ∧ (Basket.new []).get_total = 0 ∧
      (Basket.new []).to_string = "Sales Taxes: 0\nTotal: 0" := by
  have hz : showQ (0 : ℚ) = "0" := by
    rw [showQ, if_neg (by norm_num), showQnn]
    norm_num
    rfl
  refine ⟨rfl, rfl, ?_⟩
  rw [show (Basket.new []).to_string =
    String.intercalate "\n" ["Sales Taxes: " ++ showQ (Basket.new []).get_tax,
      "Total: " ++ showQ (Basket.new []).get_total] from rfl]
  rw [show (Basket.new []).get_tax = (0 : ℚ) from rfl]
  rw [show (Basket.new []).get_total = (0 : ℚ) from rfl]
  rw [hz]
  rfl
